import Mathlib

/-!
Verification of the emotigrad decorator library.

The embedding covers `src/emotigrad/base.py` (the `EmotionalOptimizer`
decorator) and `src/emotigrad/personalities.py` (built-in message
strategies and the personality registry).  Losses are modelled as
rationals; Python `Optional` values become `Option`; exceptions become
`Except`.  The cadence-based (`message_every`) variant of the decorator
is exercised by the repository's tests but its implementation is not
present in the sources, so it is modelled from the specification where
noted.
-/

set_option linter.unusedVariables false

namespace Emotigrad

/-- A personality strategy: `(loss, prev_loss, step) -> Optional[str]`
(`Personality` protocol in types.py / base.py). -/
abbrev Personality := ℚ → Option ℚ → Nat → Option String

/-- Abstraction of Python's fixed-point float formatting (`.4f` / `.2f`)
used inside message f-strings; every claim depends only on the literal
text surrounding the numbers, so the digits are rendered by `toString`. -/
def fmtF (q : ℚ) : String := toString q

/-- Python `str.lower` on the ASCII names used by the registry. -/
def strLower (s : String) : String := String.mk (s.data.map Char.toLower)

/-- The `wholesome` built-in strategy (personalities.py, `wholesome`). -/
def wholesome (loss : ℚ) (prev_loss : Option ℚ) (step : Nat) : Option String :=
  match prev_loss with
  | none => some ("✨ Let\x27s get started! Initial loss: " ++ fmtF loss)
  | some p =>
    if loss < p then
      some ("💖 Nice! Loss improved from " ++ fmtF p ++ " to " ++ fmtF loss ++ ".")
    else if p < loss then
      some ("🌱 It\x27s okay! Loss went from " ++ fmtF p ++ " to " ++ fmtF loss ++
        ". Learning isn\x27t always monotonic.")
    else none

/-- The `sassy` built-in strategy (personalities.py, `sassy`); note it
tests the increase branch before the decrease branch. -/
def sassy (loss : ℚ) (prev_loss : Option ℚ) (step : Nat) : Option String :=
  match prev_loss with
  | none => some "😒 Fine, let\x27s see what you\x27ve got."
  | some p =>
    if p < loss then
      some ("🙄 Bold move: loss got worse (" ++ fmtF p ++ " → " ++ fmtF loss ++ ").")
    else if loss < p then
      some ("👏 About time: " ++ fmtF p ++ " → " ++ fmtF loss ++ ".")
    else some "🤨 Exactly the same? Interesting choice."

/-- The class-based `QuietPersonality.__call__` (personalities.py),
parameterised by its `every_n_steps` field. -/
def QuietPersonality.call (every_n_steps : Nat) (loss : ℚ) (prev_loss : Option ℚ)
    (step : Nat) : Option String :=
  if step % every_n_steps ≠ 0 then none
  else some ("🔎 Step " ++ toString step ++ ": current loss " ++ fmtF loss)

/-- The `nervous` built-in strategy (personalities.py, `nervous`). -/
def nervous (loss : ℚ) (prev_loss : Option ℚ) (step : Nat) : Option String :=
  match prev_loss with
  | none =>
    some ("😰 Oh no, here we go... Initial loss is " ++ fmtF loss ++ ". I hope this works...")
  | some p =>
    if loss < p then
      some ("😅 Phew! Loss dropped from " ++ fmtF p ++ " to " ++ fmtF loss ++
        ". But what if it goes back up?!")
    else if p < loss then
      some ("😱 I KNEW IT! Loss went up from " ++ fmtF p ++ " to " ++ fmtF loss ++
        "! Is everything okay?!")
    else
      some ("😬 Loss is exactly the same... " ++ fmtF loss ++ ". That\x27s... concerning?")

/-- The `chaotic` built-in strategy (personalities.py, `chaotic`).
Python draws a uniformly random element of a three-message list via
`random.choice`; the draw is modelled by the extra `pick` argument,
reduced modulo 3. -/
def chaotic (pick : Nat) (loss : ℚ) (prev_loss : Option ℚ) (step : Nat) : Option String :=
  match prev_loss with
  | none =>
    if pick % 3 = 0 then
      some ("🎲 CHAOS BEGINS! Loss: " ++ fmtF loss ++ "! LET\x27S GOOOOO!")
    else if pick % 3 = 1 then
      some ("🌪️ *appears from nowhere* Oh, we\x27re training? Loss is " ++ fmtF loss ++ "!")
    else
      some ("🃏 Wild card activated! Starting loss: " ++ fmtF loss ++ "!")
  | some p =>
    if loss < p then
      if pick % 3 = 0 then
        some ("🎉 YEET! " ++ fmtF p ++ " → " ++ fmtF loss ++ "! *does a backflip*")
      else if pick % 3 = 1 then
        some ("🦄 Loss improved! " ++ fmtF p ++ " → " ++ fmtF loss ++ "! Is this magic?!")
      else
        some ("🚀 TO THE MOON! Well, to lower loss at least: " ++ fmtF loss ++ "!")
    else if p < loss then
      if pick % 3 = 0 then
        some ("💥 BOOM! Loss exploded: " ++ fmtF p ++ " → " ++ fmtF loss ++ "! EXCITING!")
      else if pick % 3 = 1 then
        some ("🎢 Wheeeee! Loss went UP to " ++ fmtF loss ++ "! What a ride!")
      else
        some ("🔥 This is fine. Loss: " ++ fmtF loss ++ ". Everything is fine. 🔥")
    else
      some ("🌀 Time is a flat circle. Loss: " ++ fmtF loss ++ ". Always has been.")

/-- The `arrogant` built-in strategy (personalities.py, `arrogant`). -/
def arrogant (loss : ℚ) (prev_loss : Option ℚ) (step : Nat) : Option String :=
  match prev_loss with
  | none =>
    some ("🧐 *adjusts monocle* Initial loss of " ++ fmtF loss ++
      "? I suppose that\x27s... acceptable for a beginner.")
  | some p =>
    if loss < p then
      some ("😏 Obviously the loss improved (" ++ fmtF p ++ " → " ++ fmtF loss ++
        "). You\x27re welcome for my guidance.")
    else if p < loss then
      some ("🙄 Loss increased to " ++ fmtF loss ++
        "? Perhaps you should have listened to my earlier suggestions.")
    else
      some ("😤 No change at " ++ fmtF loss ++
        ". Clearly, you need my expertise more than ever.")

/-- The `tired` built-in strategy (personalities.py, `tired`). -/
def tired (loss : ℚ) (prev_loss : Option ℚ) (step : Nat) : Option String :=
  match prev_loss with
  | none =>
    some ("😴 *yawn* Oh, we\x27re starting? Loss is " ++ fmtF loss ++
      "... wake me when it\x27s over.")
  | some p =>
    if loss < p then
      some ("😪 Cool, loss went down... " ++ fmtF p ++ " → " ++ fmtF loss ++
        "... can I go back to sleep now?")
    else if p < loss then
      some ("😩 Ugh, loss went up to " ++ fmtF loss ++
        ". Of course it did. I\x27m too tired for this.")
    else
      some ("💤 Loss is still " ++ fmtF loss ++ "... zzzz...")

/-- The `hype` built-in strategy (personalities.py, `hype`). -/
def hype (loss : ℚ) (prev_loss : Option ℚ) (step : Nat) : Option String :=
  match prev_loss with
  | none =>
    some ("🔥🔥🔥 LET\x27S GOOOOOO!!! Initial loss: " ++ fmtF loss ++
      "! THIS IS GONNA BE AMAZING!!!")
  | some p =>
    if loss < p then
      some ("🎊🎊🎊 YOOOOO!!! LOSS DROPPED FROM " ++ fmtF p ++ " TO " ++ fmtF loss ++
        "!!! WE\x27RE LITERALLY UNSTOPPABLE!!! 💪💪💪")
    else if p < loss then
      some ("😤😤😤 OKAY SO LOSS WENT UP TO " ++ fmtF loss ++
        " BUT THAT\x27S JUST MAKING THE COMEBACK EVEN MORE EPIC!!! LET\x27S GO!!!")
    else
      some ("⚡⚡⚡ LOSS HOLDING STEADY AT " ++ fmtF loss ++ "!!! THE TENSION IS REAL!!!")

/-- The `academic` built-in strategy (personalities.py, `academic`),
including its delta / percent-change computation with the division
guard on a zero previous loss. -/
def academic (loss : ℚ) (prev_loss : Option ℚ) (step : Nat) : Option String :=
  match prev_loss with
  | none =>
    some ("📊 Initial observation: loss function yields " ++ fmtF loss ++
      ". Proceeding with gradient descent optimization.")
  | some p =>
    let delta := loss - p
    let pct_change := if p ≠ 0 then (delta / p) * 100 else 0
    if loss < p then
      some ("📈 Statistically significant improvement observed. Loss decreased from " ++
        fmtF p ++ " to " ++ fmtF loss ++ " (Δ = " ++ fmtF delta ++ ", " ++
        fmtF pct_change ++ "% reduction).")
    else if p < loss then
      some ("📉 Note: Loss increased from " ++ fmtF p ++ " to " ++ fmtF loss ++
        " (Δ = " ++ fmtF delta ++ ", " ++ fmtF (abs pct_change) ++
        "% increase). Further investigation may be warranted.")
    else
      some ("📋 No statistically significant change detected. Loss remains at " ++
        fmtF loss ++ ". Null hypothesis cannot be rejected.")

/-- The `pirate` built-in strategy (personalities.py, `pirate`). -/
def pirate (loss : ℚ) (prev_loss : Option ℚ) (step : Nat) : Option String :=
  match prev_loss with
  | none =>
    some ("🏴‍☠️ Ahoy! We be settin\x27 sail! Initial loss be " ++ fmtF loss ++ ", matey!")
  | some p =>
    if loss < p then
      some ("⚓ Shiver me timbers! Loss dropped from " ++ fmtF p ++ " to " ++ fmtF loss ++
        "! That be treasure, arr!")
    else if p < loss then
      some ("☠️ Blimey! Loss went up to " ++ fmtF loss ++
        "! We be sailin\x27 into rough waters, ye scallywag!")
    else
      some ("🦜 The seas be calm, loss steady at " ++ fmtF loss ++ ". Onwards, me hearties!")

/-- The `zen` built-in strategy (personalities.py, `zen`). -/
def zen (loss : ℚ) (prev_loss : Option ℚ) (step : Nat) : Option String :=
  match prev_loss with
  | none =>
    some ("🧘 The journey of a thousand gradients begins with a single step. Loss: " ++
      fmtF loss ++ ".")
  | some p =>
    if loss < p then
      some ("☯️ Like water flowing downhill, the loss descends: " ++ fmtF p ++ " → " ++
        fmtF loss ++ ". Breathe.")
    else if p < loss then
      some ("🍃 The wind sometimes blows against us. Loss: " ++ fmtF loss ++
        ". This too shall pass.")
    else
      some ("🌸 Stillness. Loss remains at " ++ fmtF loss ++ ". Find peace in the plateau.")

/-- The registry error kinds of the spec: `DuplicateNameError` is Python's
`ValueError` raised by `register_personality`, `NotFoundError` is the
`KeyError` raised by `get_personality`; each carries its message text. -/
inductive EmotigradError where
  | duplicateName (msg : String)
  | notFound (msg : String)

/-- The personality registry, `_PERSONALITY_REGISTRY`: a Python dict from
lower-cased name to callable, modelled as an insertion-ordered
association list. -/
abbrev Registry := List (String × Personality)

/-- Python dict membership / lookup `registry[key]` by key. -/
def lookupReg (reg : Registry) (key : String) : Option Personality :=
  match reg with
  | [] => none
  | (k, p) :: rest => if k = key then some p else lookupReg rest key

/-- Python dict assignment `registry[key] = p`: replace in place when the
key exists, append otherwise. -/
def dictInsert (reg : Registry) (key : String) (p : Personality) : Registry :=
  match reg with
  | [] => [(key, p)]
  | (k, q) :: rest =>
    if k = key then (k, p) :: rest else (k, q) :: dictInsert rest key p

/-- The built-in contents of `_PERSONALITY_REGISTRY` (personalities.py).
The `quiet` entry is the instance `QuietPersonality()` with its default
interval of 10; the `chaotic` entry fixes one random draw. -/
def PERSONALITY_REGISTRY : Registry :=
  [("wholesome", wholesome),
   ("sassy", sassy),
   ("quiet", QuietPersonality.call 10),
   ("nervous", nervous),
   ("chaotic", chaotic 0),
   ("arrogant", arrogant),
   ("tired", tired),
   ("hype", hype),
   ("academic", academic),
   ("pirate", pirate),
   ("zen", zen)]

/-- Insertion step of the string sort used to model Python `sorted`. -/
def insertSorted (s : String) : List String → List String
  | [] => [s]
  | t :: rest => if decide (s ≤ t) then s :: t :: rest else t :: insertSorted s rest

/-- Python `sorted` on strings, modelled as insertion sort. -/
def sortStrings : List String → List String
  | [] => []
  | s :: rest => insertSorted s (sortStrings rest)

/-- `list_personalities` (personalities.py): the sorted registry keys. -/
def list_personalities (reg : Registry) : List String :=
  sortStrings (reg.map Prod.fst)

/-- `", ".join(...)` over a list of names. -/
def joinComma (l : List String) : String := String.intercalate ", " l

/-- `register_personality` (personalities.py).  The state-passing model
returns the possibly-raised error together with the registry after the
call; Python raises before the dict assignment, so on error the registry
component is the unchanged input. -/
def register_personality (name : String) (personality : Personality)
    (overwrite : Bool) (reg : Registry) : Option EmotigradError × Registry :=
  let key := strLower name
  if overwrite = false ∧ (lookupReg reg key).isSome then
    (some (.duplicateName ("Personality \x27" ++ name ++ "\x27 is already registered.")),
     reg)
  else
    (none, dictInsert reg key personality)

/-- `get_personality` (personalities.py): lower-case the name, look it
up, and on a miss raise a `KeyError` whose message lists the sorted
available names. -/
def get_personality (reg : Registry) (name : String) : Except EmotigradError Personality :=
  let key := strLower name
  match lookupReg reg key with
  | some p => .ok p
  | none =>
    .error (.notFound ("Unknown personality \x27" ++ name ++ "\x27. Available: " ++
      joinComma (list_personalities reg)))

/-- The decorator state kept by `EmotionalOptimizer.__post_init__`
(base.py): `_step` and `_prev_loss`. -/
structure SrcState where
  _step : Nat
  _prev_loss : Option ℚ
deriving DecidableEq

/-- State right after construction (base.py, `__post_init__`). -/
def srcInit : SrcState := ⟨0, none⟩

/-- The `try/except` around the personality call in
`EmotionalOptimizer.step` (base.py lines 93-97): a raising strategy is
treated as producing no message. -/
def callPersonality (personality : ℚ → Option ℚ → Nat → Except ε (Option String))
    (loss : ℚ) (prev : Option ℚ) (step : Nat) : Option String :=
  match personality loss prev step with
  | .ok m => m
  | .error _ => none

/-- Python truthiness of `if message: print_fn(message)` (base.py lines
99-100): `None` and the empty string emit nothing. -/
def truthyEmit : Option String → List String
  | some m => if m = "" then [] else [m]
  | none => []

/-- The message block of `EmotionalOptimizer.step` (base.py lines
92-100): when enabled and a loss is supplied, call the personality at
the already-incremented step counter (errors swallowed) and emit the
result when truthy. -/
def srcEmit (enabled : Bool) (personality : ℚ → Option ℚ → Nat → Except ε (Option String))
    (loss : Option ℚ) (s : SrcState) : List String :=
  match enabled, loss with
  | true, some l => truthyEmit (callPersonality personality l s._prev_loss (s._step + 1))
  | _, _ => []

/-- The `_prev_loss` update of `EmotionalOptimizer.step` (base.py lines
102-103): a supplied loss replaces it, otherwise it is unchanged. -/
def nextPrev (loss : Option ℚ) (s : SrcState) : Option ℚ :=
  match loss with
  | some l => some l
  | none => s._prev_loss

/-- `EmotionalOptimizer.step` (base.py lines 78-105).  `inner` is the
result of the wrapped optimizer's `step`, which runs first; if it raises,
the exception propagates before any bookkeeping.  On success the call
returns the forwarded result, the updated decorator state, and the list
of messages sent to `print_fn`. -/
def stepSrc (enabled : Bool) (personality : ℚ → Option ℚ → Nat → Except ε (Option String))
    (inner : Except ε ρ) (loss : Option ℚ) (s : SrcState) :
    Except ε (ρ × SrcState × List String) :=
  match inner with
  | .error e => .error e
  | .ok result =>
    .ok (result, ⟨s._step + 1, nextPrev loss s⟩, srcEmit enabled personality loss s)

/-- A sequence of `step` calls on the base.py decorator.  Each element
carries the wrapped optimizer's outcome for that call and the optional
loss.  A raised exception aborts the remaining calls with the decorator
state as it was before the failing call. -/
def runSrc (enabled : Bool) (personality : ℚ → Option ℚ → Nat → Except ε (Option String)) :
    List (Except ε ρ × Option ℚ) → SrcState → SrcState × List String
  | [], s => (s, [])
  | (inner, loss) :: rest, s =>
    match stepSrc enabled personality inner loss s with
    | .error _ => (s, [])
    | .ok (_, s1, out) =>
      let (s2, outs) := runSrc enabled personality rest s1
      (s2, out ++ outs)

/-- Modelled from the spec: the state of the cadence-based decorator
(spec §3), whose implementation is missing from src/ (only the tests
`test_message_every.py` and `test_registry_and_integration.py` exercise
it): step counter, running sum and count of the current window, and the
previous window's average. -/
structure CadState where
  _step : Nat
  runSum : ℚ
  runCount : Nat
  prevAvg : Option ℚ
deriving DecidableEq

/-- Modelled from the spec: cadence decorator state at construction. -/
def cadInit : CadState := ⟨0, 0, 0, none⟩

/-- Modelled from the spec: the running loss sum of the current window
after a call that may record a loss (spec §4.1 step 3). -/
def sumNext (loss : Option ℚ) (s : CadState) : ℚ :=
  match loss with
  | some l => s.runSum + l
  | none => s.runSum

/-- Modelled from the spec: the running loss count of the current window
after a call that may record a loss (spec §4.1 step 3). -/
def cntNext (loss : Option ℚ) (s : CadState) : Nat :=
  match loss with
  | some _ => s.runCount + 1
  | none => s.runCount

/-- Modelled from the spec: the `advance` operation of the cadence-based
decorator (spec §4.1, steps 2-4; forwarding to the wrapped optimizer is
external).  Increment the step counter; record a supplied loss into the
window; when enabled, the cadence is positive, the step counter is a
multiple of the cadence and the window holds at least one loss, invoke
the strategy on the window average (errors discarded), emit a non-empty
result, store the average as the previous average and reset the window. -/
def advance (enabled : Bool) (message_every : Nat)
    (personality : ℚ → Option ℚ → Nat → Except ε (Option String))
    (loss : Option ℚ) (s : CadState) : CadState × List String :=
  let st := s._step + 1
  if enabled ∧ 0 < message_every ∧ st % message_every = 0 ∧ 0 < cntNext loss s then
    let avg := sumNext loss s / (cntNext loss s : ℚ)
    let emitted := truthyEmit (callPersonality personality avg s.prevAvg st)
    (⟨st, 0, 0, some avg⟩, emitted)
  else
    (⟨st, sumNext loss s, cntNext loss s, s.prevAvg⟩, [])

/-- Modelled from the spec: a sequence of `advance` calls on the
cadence-based decorator, collecting all emitted messages. -/
def runAdvance (enabled : Bool) (message_every : Nat)
    (personality : ℚ → Option ℚ → Nat → Except ε (Option String)) :
    List (Option ℚ) → CadState → CadState × List String
  | [], s => (s, [])
  | loss :: rest, s =>
    let (s1, out) := advance enabled message_every personality loss s
    let (s2, outs) := runAdvance enabled message_every personality rest s1
    (s2, out ++ outs)

/-- Modelled from the spec: construction resolves a string strategy
through the registry and keeps a callable strategy unchanged (spec §6;
the string-accepting constructor is exercised by the tests but missing
from src/base.py). -/
def resolveStrategy (reg : Registry) (strategy : String ⊕ Personality) :
    Except EmotigradError Personality :=
  match strategy with
  | .inl name => get_personality reg name
  | .inr f => .ok f

/-- The configuration produced by a successful construction of the
cadence-based decorator. -/
structure EmotionalOptimizerCfg where
  personality : Personality
  enabled : Bool
  message_every : Nat

/-- Modelled from the spec: `EmotionalOptimizer` construction for the
cadence-based decorator (spec §6): strategy as name or callable,
enabled flag, message cadence.  Fails exactly when a string strategy is
unregistered. -/
def mkEmotionalOptimizer (reg : Registry) (strategy : String ⊕ Personality)
    (enabled : Bool) (message_every : Nat) :
    Except EmotigradError EmotionalOptimizerCfg :=
  match resolveStrategy reg strategy with
  | .error e => .error e
  | .ok p => .ok ⟨p, enabled, message_every⟩

/-- Modelled from the spec: the default strategy parameter is the
registry name "wholesome" (spec §6). -/
def defaultStrategy : String ⊕ Personality := Sum.inl "wholesome"

/-- A pure strategy that always answers with a fixed message, used to
instantiate universally quantified theorems at concrete inputs. -/
def constPersonality : ℚ → Option ℚ → Nat → Except Unit (Option String) :=
  fun _ _ _ => .ok (some "message")

/-- A strategy that always raises, as in the repository's test
`test_emotional_optimizer_personality_exceptions_handled`. -/
def raisingPersonality : ℚ → Option ℚ → Nat → Except Unit (Option String) :=
  fun _ _ _ => .error ()

theorem str_eq_empty (a : String) (h : a.length = 0) : a = "" := by
  cases a with
  | mk d =>
    have hd : d = [] := List.length_eq_zero.mp h
    rw [hd]

theorem append_ne_left (a b : String) (h : a ≠ "") : a ++ b ≠ "" := by
  intro hab
  apply h
  apply str_eq_empty
  have hl := congrArg String.length hab
  rw [String.length_append] at hl
  have h0 : String.length "" = 0 := rfl
  omega

/-- C10: If the wrapped optimizer's step raises, `EmotionalOptimizer.step`
propagates the error; the decorator state is untouched (no counter
increment, no `_prev_loss` update), nothing reaches the output sink, the
remaining calls of the sequence are not made, and the personality is
never consulted (the outcome is the same for every personality). -/
theorem inner_error_propagates {ε ρ : Type} (enabled : Bool)
    (personality personality2 : ℚ → Option ℚ → Nat → Except ε (Option String))
    (e : ε) (loss : Option ℚ) (s : SrcState)
    (rest : List (Except ε ρ × Option ℚ)) :
    stepSrc enabled personality (Except.error e) loss s = (Except.error e : Except ε (ρ × SrcState × List String)) ∧
    runSrc enabled personality ((Except.error e, loss) :: rest) s = (s, []) ∧
    stepSrc (ρ := ρ) enabled personality (Except.error e) loss s =
      stepSrc enabled personality2 (Except.error e) loss s :=
  ⟨rfl, rfl, rfl⟩

/-- C5: after a sequence of `step` calls in which the wrapped optimizer
always succeeds, the step counter has grown by exactly the number of
calls, for every enabled flag and every pattern of supplied or omitted
losses; in particular from a fresh decorator `K` calls leave the counter
at `K`. -/
theorem step_count_after_K {ε ρ : Type} (enabled : Bool)
    (personality : ℚ → Option ℚ → Nat → Except ε (Option String))
    (calls : List (Except ε ρ × Option ℚ)) (s : SrcState)
    (h : ∀ c ∈ calls, ∃ r, c.1 = Except.ok r) :
    ((runSrc enabled personality calls s).1)._step = s._step + calls.length := by
  induction calls generalizing s with
  | nil => simp [runSrc]
  | cons c rest ih =>
    obtain ⟨inner, loss⟩ := c
    obtain ⟨r, hr⟩ := h (inner, loss) (List.mem_cons_self _ _)
    simp only at hr
    subst hr
    simp only [runSrc, stepSrc, List.length_cons]
    rw [ih _ (fun c hc => h c (List.mem_cons_of_mem _ hc))]
    simp only [SrcState.mk.injEq]
    omega

/-- Witness for C5 at two concrete calls (one with a loss, one without,
with messaging disabled). -/
theorem step_count_after_K_witness :
    ((runSrc false constPersonality
        [(Except.ok (0 : Nat), some 1), (Except.ok 0, none)] srcInit).1)._step = 2 :=
  step_count_after_K false constPersonality _ srcInit (by
    intro c hc
    simp only [List.mem_cons, List.not_mem_nil, or_false] at hc
    rcases hc with h | h <;> exact h ▸ ⟨0, rfl⟩)

/-- C3: a strategy that raises never breaks an enabled step: the wrapped
optimizer's result is still returned unchanged, the bookkeeping happens,
and the error is discarded, so no message is emitted. -/
theorem strategy_error_swallowed {ε ρ : Type}
    (personality : ℚ → Option ℚ → Nat → Except ε (Option String))
    (hp : ∀ l p st, ∃ e, personality l p st = Except.error e)
    (r : ρ) (loss : Option ℚ) (s : SrcState) :
    stepSrc true personality (Except.ok r) loss s =
      Except.ok (r, ⟨s._step + 1, nextPrev loss s⟩, ([] : List String)) := by
  have hemit : srcEmit true personality loss s = [] := by
    cases loss with
    | none => rfl
    | some l =>
      obtain ⟨e, he⟩ := hp l s._prev_loss (s._step + 1)
      simp [srcEmit, callPersonality, he, truthyEmit]
  simp [stepSrc, hemit]

/-- Witness for C3: one enabled step with an always-raising strategy. -/
theorem strategy_error_swallowed_witness :
    stepSrc true raisingPersonality (Except.ok (0 : Nat)) (some 1) srcInit =
      Except.ok (0, ⟨1, some 1⟩, ([] : List String)) :=
  strategy_error_swallowed raisingPersonality (fun _ _ _ => ⟨(), rfl⟩) 0 (some 1) srcInit

/-- C9: with the enabled flag off, no step ever consults the strategy
(the run is identical under any two strategies) and nothing reaches the
output sink, for every cadence value and every pattern of supplied or
omitted losses; the same holds for the non-cadence `step` of base.py. -/
theorem disabled_never_invokes {ε ε2 ρ : Type} (message_every : Nat)
    (personality personality2 : ℚ → Option ℚ → Nat → Except ε (Option String))
    (personality3 : ℚ → Option ℚ → Nat → Except ε2 (Option String))
    (losses : List (Option ℚ)) (s : CadState)
    (inner : Except ε2 ρ) (loss : Option ℚ) (s2 : SrcState) :
    (runAdvance false message_every personality losses s).2 = [] ∧
    runAdvance false message_every personality losses s =
      runAdvance false message_every personality2 losses s ∧
    srcEmit false personality3 loss s2 = [] ∧
    stepSrc false personality3 inner loss s2 =
      (match inner with
       | .error e => .error e
       | .ok result => .ok (result, ⟨s2._step + 1, nextPrev loss s2⟩, [])) := by
  refine ⟨?_, ?_, rfl, ?_⟩
  · induction losses generalizing s with
    | nil => rfl
    | cons l rest ih =>
      simp only [runAdvance, advance]
      rw [if_neg (fun hc => by simp at hc)]
      simpa using ih _
  · induction losses generalizing s with
    | nil => rfl
    | cons l rest ih =>
      simp only [runAdvance, advance]
      rw [if_neg (fun hc => by simp at hc), if_neg (fun hc => by simp at hc)]
      rw [ih]
  · cases inner <;> rfl

theorem lookup_dictInsert (reg : Registry) (key : String) (p : Personality) :
    lookupReg (dictInsert reg key p) key = some p := by
  induction reg with
  | nil => simp [dictInsert, lookupReg]
  | cons kv rest ih =>
    obtain ⟨k, q⟩ := kv
    by_cases hk : k = key
    · subst hk
      simp [dictInsert, lookupReg]
    · simp [dictInsert, lookupReg, hk, ih]

theorem mem_insertSorted (a s : String) (l : List String) :
    a ∈ insertSorted s l ↔ a = s ∨ a ∈ l := by
  induction l with
  | nil => simp [insertSorted]
  | cons t rest ih =>
    simp only [insertSorted]
    split
    · simp
    · simp only [List.mem_cons, ih]
      tauto

theorem mem_sortStrings (a : String) (l : List String) :
    a ∈ sortStrings l ↔ a ∈ l := by
  induction l with
  | nil => simp [sortStrings]
  | cons s rest ih => simp [sortStrings, mem_insertSorted, ih]

/-- C7: registering an already-present name (case-insensitively) without
overwrite raises the duplicate-name error and leaves the registry
unchanged; with overwrite it replaces the mapping, and resolving the name
afterwards yields the newly registered strategy. -/
theorem register_duplicate_and_overwrite :
    (∀ (reg : Registry) (name : String) (p : Personality),
      (lookupReg reg (strLower name)).isSome = true →
      register_personality name p false reg =
        (some (EmotigradError.duplicateName
          ("Personality \x27" ++ name ++ "\x27 is already registered.")), reg)) ∧
    (∀ (reg : Registry) (name : String) (p : Personality),
      register_personality name p true reg = (none, dictInsert reg (strLower name) p) ∧
      get_personality (dictInsert reg (strLower name) p) name = Except.ok p) := by
  constructor
  · intro reg name p h
    simp [register_personality, h]
  · intro reg name p
    constructor
    · simp [register_personality]
    · simp [get_personality, lookup_dictInsert]

/-- Witness for C7: re-registering "wholesome" without overwrite fails
and keeps the built-in registry; registering over "sassy" with overwrite
makes resolution return the new strategy. -/
theorem register_duplicate_and_overwrite_witness :
    register_personality "wholesome" (fun _ _ _ => some "dummy") false PERSONALITY_REGISTRY =
      (some (EmotigradError.duplicateName "Personality \x27wholesome\x27 is already registered."),
       PERSONALITY_REGISTRY) ∧
    get_personality (dictInsert PERSONALITY_REGISTRY (strLower "sassy") (fun _ _ _ => some "new sassy")) "sassy" =
      Except.ok (fun _ _ _ => some "new sassy") :=
  ⟨register_duplicate_and_overwrite.1 PERSONALITY_REGISTRY "wholesome" _ (by decide),
   (register_duplicate_and_overwrite.2 PERSONALITY_REGISTRY "sassy" _).2⟩

/-- C8: name resolution is case-insensitive: any two names with the same
lower-casing that hit a registered entry resolve to the same strategy. -/
theorem resolve_case_insensitive (reg : Registry) (v w : String) (p : Personality)
    (hvw : strLower v = strLower w)
    (hw : lookupReg reg (strLower w) = some p) :
    get_personality reg v = Except.ok p ∧ get_personality reg w = Except.ok p := by
  constructor
  · simp [get_personality, hvw, hw]
  · simp [get_personality, hw]

/-- Witness for C8: resolving "WHOLESOME" and "wholesome" both return the
built-in wholesome strategy. -/
theorem resolve_case_insensitive_witness :
    get_personality PERSONALITY_REGISTRY "WHOLESOME" = Except.ok wholesome ∧
    get_personality PERSONALITY_REGISTRY "wholesome" = Except.ok wholesome :=
  resolve_case_insensitive PERSONALITY_REGISTRY "WHOLESOME" "wholesome" wholesome (by decide) rfl

/-- C2: construction accepts a callable strategy unchanged, resolves the
default name "wholesome" to the registered built-in at construction time,
and for an unregistered name fails with the not-found error whose message
carries the sorted list of valid names, which enumerates exactly the
registry's keys. -/
theorem construction_resolves_strategy :
    (∀ (enabled : Bool) (message_every : Nat) (f : Personality),
      mkEmotionalOptimizer PERSONALITY_REGISTRY (Sum.inr f) enabled message_every =
        Except.ok ⟨f, enabled, message_every⟩) ∧
    (∀ (enabled : Bool) (message_every : Nat),
      mkEmotionalOptimizer PERSONALITY_REGISTRY defaultStrategy enabled message_every =
        Except.ok ⟨wholesome, enabled, message_every⟩) ∧
    (∀ (reg : Registry) (name : String) (enabled : Bool) (message_every : Nat),
      lookupReg reg (strLower name) = none →
      mkEmotionalOptimizer reg (Sum.inl name) enabled message_every =
        Except.error (EmotigradError.notFound
          ("Unknown personality \x27" ++ name ++ "\x27. Available: " ++
            joinComma (list_personalities reg))) ∧
      ∀ k, k ∈ reg.map Prod.fst ↔ k ∈ list_personalities reg) := by
  refine ⟨fun _ _ _ => rfl, fun _ _ => rfl, ?_⟩
  intro reg name enabled message_every h
  constructor
  · simp [mkEmotionalOptimizer, resolveStrategy, get_personality, h]
  · intro k
    exact (mem_sortStrings k (reg.map Prod.fst)).symm

/-- Witness for C2: constructing with the unregistered name
"nonexistent_personality" (as in the repository's registry test) fails
with the not-found error listing the available names, and "wholesome" is
among the listed names. -/
theorem construction_resolves_strategy_witness :
    mkEmotionalOptimizer PERSONALITY_REGISTRY (Sum.inl "nonexistent_personality") true 1 =
      Except.error (EmotigradError.notFound
        ("Unknown personality \x27nonexistent_personality\x27. Available: " ++
          joinComma (list_personalities PERSONALITY_REGISTRY))) ∧
    "wholesome" ∈ list_personalities PERSONALITY_REGISTRY := by
  have h := construction_resolves_strategy.2.2 PERSONALITY_REGISTRY
    "nonexistent_personality" true 1 rfl
  exact ⟨h.1, (h.2 "wholesome").mp (by decide)⟩

theorem runAdvance_cons {ε : Type} (enabled : Bool) (C : Nat)
    (personality : ℚ → Option ℚ → Nat → Except ε (Option String))
    (loss : Option ℚ) (rest : List (Option ℚ)) (s : CadState) :
    runAdvance enabled C personality (loss :: rest) s =
      ((runAdvance enabled C personality rest (advance enabled C personality loss s).1).1,
       (advance enabled C personality loss s).2 ++
         (runAdvance enabled C personality rest (advance enabled C personality loss s).1).2) := by
  simp only [runAdvance]

theorem advance_emit {ε : Type} (enabled : Bool) (C : Nat)
    (personality : ℚ → Option ℚ → Nat → Except ε (Option String))
    (loss : Option ℚ) (s : CadState)
    (h : enabled = true ∧ 0 < C ∧ (s._step + 1) % C = 0 ∧ 0 < cntNext loss s) :
    advance enabled C personality loss s =
      (⟨s._step + 1, 0, 0, some (sumNext loss s / (cntNext loss s : ℚ))⟩,
       truthyEmit (callPersonality personality (sumNext loss s / (cntNext loss s : ℚ))
         s.prevAvg (s._step + 1))) := by
  simp only [advance]
  rw [if_pos h]

theorem advance_skip {ε : Type} (enabled : Bool) (C : Nat)
    (personality : ℚ → Option ℚ → Nat → Except ε (Option String))
    (loss : Option ℚ) (s : CadState)
    (h : ¬(enabled = true ∧ 0 < C ∧ (s._step + 1) % C = 0 ∧ 0 < cntNext loss s)) :
    advance enabled C personality loss s =
      (⟨s._step + 1, sumNext loss s, cntNext loss s, s.prevAvg⟩, []) := by
  simp only [advance]
  rw [if_neg h]

theorem runAdvance_msg_count {ε : Type} (C : Nat)
    (personality : ℚ → Option ℚ → Nat → Except ε (Option String))
    (hC : 0 < C)
    (hp : ∀ l p st, ∃ m, personality l p st = Except.ok (some m) ∧ m ≠ "")
    (ls : List ℚ) :
    ∀ s : CadState,
      ((runAdvance true C personality (ls.map some) s).2).length =
        (s._step + ls.length) / C - s._step / C := by
  induction ls with
  | nil =>
    intro s
    simp [runAdvance]
  | cons l rest ih =>
    intro s
    rw [List.map_cons, runAdvance_cons]
    by_cases hd : (s._step + 1) % C = 0
    · rw [advance_emit _ _ _ _ _ ⟨rfl, hC, hd, by simp [cntNext]⟩]
      obtain ⟨m, hm, hne⟩ :=
        hp (sumNext (some l) s / (cntNext (some l) s : ℚ)) s.prevAvg (s._step + 1)
      dsimp only
      simp only [callPersonality, hm, truthyEmit]
      rw [if_neg hne]
      rw [List.length_append, ih]
      dsimp only
      simp only [List.length_cons, List.length_nil]
      have h1 : (s._step + 1) / C = s._step / C + 1 :=
        Nat.succ_div_of_dvd (Nat.dvd_of_mod_eq_zero hd)
      have heq : s._step + (rest.length + 1) = s._step + 1 + rest.length := by omega
      rw [heq]
      have h2 : (s._step + 1) / C ≤ (s._step + 1 + rest.length) / C :=
        Nat.div_le_div_right (Nat.le_add_right _ _)
      set a := s._step / C with ha
      set b := (s._step + 1) / C with hb
      set c := (s._step + 1 + rest.length) / C with hc
      omega
    · rw [advance_skip _ _ _ _ _ (fun hc => hd hc.2.2.1)]
      dsimp only
      rw [List.nil_append, ih]
      have h1 : (s._step + 1) / C = s._step / C :=
        Nat.succ_div_of_not_dvd (fun hdvd => hd (Nat.dvd_iff_mod_eq_zero.mp hdvd))
      have heq : s._step + (rest.length + 1) = s._step + 1 + rest.length := by omega
      rw [List.length_cons, heq, h1]

/-- C1: a run of `N` advance calls on the cadence-based decorator with
cadence `C > 0`, every call supplying a loss and the strategy always
returning a non-empty message, delivers exactly `N / C` (floor division)
messages to the output sink. -/
theorem message_count_floor {ε : Type} (C : Nat)
    (personality : ℚ → Option ℚ → Nat → Except ε (Option String))
    (hC : 0 < C)
    (hp : ∀ l p st, ∃ m, personality l p st = Except.ok (some m) ∧ m ≠ "")
    (losses : List ℚ) :
    ((runAdvance true C personality (losses.map some) cadInit).2).length =
      losses.length / C := by
  rw [runAdvance_msg_count C personality hC hp losses cadInit]
  simp [cadInit]

/-- Witness for C1: five calls at cadence 2 emit exactly two messages. -/
theorem message_count_floor_witness :
    ((runAdvance true 2 constPersonality (([1, 1, 1, 1, 1] : List ℚ).map some) cadInit).2).length =
      ([1, 1, 1, 1, 1] : List ℚ).length / 2 :=
  message_count_floor 2 constPersonality (by decide)
    (fun _ _ _ => ⟨"message", rfl, by decide⟩) [1, 1, 1, 1, 1]

theorem runAdvance_window {ε : Type} (C : Nat)
    (personality : ℚ → Option ℚ → Nat → Except ε (Option String))
    (ls : List ℚ) :
    ∀ s : CadState, 0 < C → s.runCount < C → s._step % C = s.runCount →
      s.runCount + ls.length = C → 0 < ls.length →
      (runAdvance true C personality (ls.map some) s).1 =
        ⟨s._step + ls.length, 0, 0, some ((s.runSum + ls.sum) / (C : ℚ))⟩ := by
  induction ls with
  | nil =>
    intro s _ _ _ _ hpos
    simp at hpos
  | cons l rest ih =>
    intro s hC hlt hmod hlen hpos
    simp only [List.length_cons] at hlen
    rw [List.map_cons, runAdvance_cons]
    rcases Nat.eq_zero_or_pos rest.length with hr0 | hrpos
    · have hrest : rest = [] := List.length_eq_zero.mp hr0
      subst hrest
      have hcntC : s.runCount + 1 = C := by omega
      have hst : (s._step + 1) % C = 0 := by
        have hdm := Nat.div_add_mod s._step C
        have hstep : s._step + 1 = C * (s._step / C) + C := by omega
        have hmul : C * (s._step / C) + C = C * (s._step / C + 1) := by ring
        rw [hstep, hmul, Nat.mul_mod_right]
      rw [advance_emit _ _ _ _ _ ⟨rfl, hC, hst, by simp [cntNext]⟩]
      dsimp only
      rw [List.map_nil]
      have hcast : ((cntNext (some l) s : Nat) : ℚ) = (C : ℚ) := by
        simp only [cntNext]
        exact_mod_cast hcntC
      simp [runAdvance, sumNext, hcast]
    · have hlt1 : s.runCount + 1 < C := by omega
      have hmod1 : (s._step + 1) % C = s.runCount + 1 := by
        have hdm := Nat.div_add_mod s._step C
        have hstep : s._step + 1 = C * (s._step / C) + (s.runCount + 1) := by omega
        rw [hstep, Nat.mul_add_mod]
        exact Nat.mod_eq_of_lt hlt1
      have hne : (s._step + 1) % C ≠ 0 := by
        rw [hmod1]
        omega
      rw [advance_skip _ _ _ _ _ (fun hc => hne hc.2.2.1)]
      dsimp only
      have hrec := ih ⟨s._step + 1, sumNext (some l) s, cntNext (some l) s, s.prevAvg⟩
        hC (by simp [cntNext]; omega) (by simp [cntNext]; exact hmod1)
        (by simp [cntNext]; omega) hrpos
      rw [hrec]
      simp only [CadState.mk.injEq, sumNext, List.sum_cons, List.length_cons]
      refine ⟨by omega, by trivial, by trivial, ?_⟩
      congr 1
      ring

/-- C4: the previous-average state is updated exactly when a
message-emission window closes with at least one recorded loss, and then
it becomes that window's average; every other advance call leaves it
unchanged.  In particular, running one full window of `C` losses from a
fresh window sets it to the average of those losses. -/
theorem prev_avg_window_update {ε : Type} (enabled : Bool) (C : Nat)
    (personality : ℚ → Option ℚ → Nat → Except ε (Option String)) :
    (∀ (loss : Option ℚ) (s : CadState),
      ((advance enabled C personality loss s).1).prevAvg =
        if enabled = true ∧ 0 < C ∧ (s._step + 1) % C = 0 ∧ 0 < cntNext loss s
        then some (sumNext loss s / (cntNext loss s : ℚ))
        else s.prevAvg) ∧
    (∀ (ls : List ℚ) (s : CadState), 0 < C → ls.length = C → s._step % C = 0 →
      s.runSum = 0 → s.runCount = 0 →
      ((runAdvance true C personality (ls.map some) s).1).prevAvg =
        some (ls.sum / (C : ℚ))) := by
  constructor
  · intro loss s
    by_cases hc : enabled = true ∧ 0 < C ∧ (s._step + 1) % C = 0 ∧ 0 < cntNext loss s
    · rw [advance_emit _ _ _ _ _ hc, if_pos hc]
    · rw [advance_skip _ _ _ _ _ hc, if_neg hc]
  · intro ls s hC hlen hmod hsum hcnt
    have h := runAdvance_window C personality ls s hC (by omega)
      (by rw [hcnt]; exact hmod) (by omega) (by omega)
    rw [h, hsum]
    simp

/-- Witness for C4: one closed window of losses 1 and 3 at cadence 2
leaves previous-average 2; and a single non-closing call leaves it
untouched. -/
theorem prev_avg_window_update_witness :
    ((runAdvance true 2 constPersonality (([1, 3] : List ℚ).map some) cadInit).1).prevAvg =
      some ((([1, 3] : List ℚ).sum) / ((2 : Nat) : ℚ)) ∧
    ((advance true 2 constPersonality (some 1) cadInit).1).prevAvg = cadInit.prevAvg :=
  ⟨(prev_avg_window_update true 2 constPersonality).2 [1, 3] cadInit (by decide)
      rfl rfl rfl rfl,
   by
    rw [(prev_avg_window_update true 2 constPersonality).1 (some 1) cadInit]
    decide⟩

/-- A strategy result that is an actually delivered message: present and
non-empty. -/
def nonemptyMsg : Option String → Prop
  | some m => m ≠ ""
  | none => False

/-- The behaviour contract shared by the built-in strategies (spec §4.3):
an introductory message on first invocation, a message on a strict
decrease, a message on a strict increase, and on exact equality either
no message or a strategy-specific non-empty no-change message. -/
def MessageContract (f : Personality) : Prop :=
  (∀ (l : ℚ) (st : Nat), nonemptyMsg (f l none st)) ∧
  (∀ (l p : ℚ) (st : Nat), l < p → nonemptyMsg (f l (some p) st)) ∧
  (∀ (l p : ℚ) (st : Nat), p < l → nonemptyMsg (f l (some p) st)) ∧
  (∀ (l : ℚ) (st : Nat), f l (some l) st = none ∨ nonemptyMsg (f l (some l) st))

theorem contract_wholesome : MessageContract wholesome := by
  refine ⟨?_, ?_, ?_, ?_⟩
  · intro l st
    simp only [wholesome, nonemptyMsg]
    repeat apply append_ne_left
    decide
  · intro l p st h
    simp only [wholesome]
    rw [if_pos h]
    simp only [nonemptyMsg]
    repeat apply append_ne_left
    decide
  · intro l p st h
    simp only [wholesome]
    rw [if_neg (lt_asymm h), if_pos h]
    simp only [nonemptyMsg]
    repeat apply append_ne_left
    decide
  · intro l st
    left
    simp only [wholesome]
    rw [if_neg (lt_irrefl l), if_neg (lt_irrefl l)]

theorem contract_sassy : MessageContract sassy := by
  refine ⟨?_, ?_, ?_, ?_⟩
  · intro l st
    simp only [sassy, nonemptyMsg]
    decide
  · intro l p st h
    simp only [sassy]
    rw [if_neg (lt_asymm h), if_pos h]
    simp only [nonemptyMsg]
    repeat apply append_ne_left
    decide
  · intro l p st h
    simp only [sassy]
    rw [if_pos h]
    simp only [nonemptyMsg]
    repeat apply append_ne_left
    decide
  · intro l st
    right
    simp only [sassy]
    rw [if_neg (lt_irrefl l), if_neg (lt_irrefl l)]
    simp only [nonemptyMsg]
    decide

theorem contract_nervous : MessageContract nervous := by
  refine ⟨?_, ?_, ?_, ?_⟩
  · intro l st
    simp only [nervous, nonemptyMsg]
    repeat apply append_ne_left
    decide
  · intro l p st h
    simp only [nervous]
    rw [if_pos h]
    simp only [nonemptyMsg]
    repeat apply append_ne_left
    decide
  · intro l p st h
    simp only [nervous]
    rw [if_neg (lt_asymm h), if_pos h]
    simp only [nonemptyMsg]
    repeat apply append_ne_left
    decide
  · intro l st
    right
    simp only [nervous]
    rw [if_neg (lt_irrefl l), if_neg (lt_irrefl l)]
    simp only [nonemptyMsg]
    repeat apply append_ne_left
    decide

theorem contract_chaotic (pick : Nat) : MessageContract (chaotic pick) := by
  refine ⟨?_, ?_, ?_, ?_⟩
  · intro l st
    simp only [chaotic]
    split_ifs
    all_goals simp only [nonemptyMsg]
    all_goals repeat apply append_ne_left
    all_goals decide
  · intro l p st h
    simp only [chaotic]
    rw [if_pos h]
    split_ifs
    all_goals simp only [nonemptyMsg]
    all_goals repeat apply append_ne_left
    all_goals decide
  · intro l p st h
    simp only [chaotic]
    rw [if_neg (lt_asymm h), if_pos h]
    split_ifs
    all_goals simp only [nonemptyMsg]
    all_goals repeat apply append_ne_left
    all_goals decide
  · intro l st
    right
    simp only [chaotic]
    rw [if_neg (lt_irrefl l), if_neg (lt_irrefl l)]
    simp only [nonemptyMsg]
    repeat apply append_ne_left
    decide

theorem contract_arrogant : MessageContract arrogant := by
  refine ⟨?_, ?_, ?_, ?_⟩
  · intro l st
    simp only [arrogant, nonemptyMsg]
    repeat apply append_ne_left
    decide
  · intro l p st h
    simp only [arrogant]
    rw [if_pos h]
    simp only [nonemptyMsg]
    repeat apply append_ne_left
    decide
  · intro l p st h
    simp only [arrogant]
    rw [if_neg (lt_asymm h), if_pos h]
    simp only [nonemptyMsg]
    repeat apply append_ne_left
    decide
  · intro l st
    right
    simp only [arrogant]
    rw [if_neg (lt_irrefl l), if_neg (lt_irrefl l)]
    simp only [nonemptyMsg]
    repeat apply append_ne_left
    decide

theorem contract_tired : MessageContract tired := by
  refine ⟨?_, ?_, ?_, ?_⟩
  · intro l st
    simp only [tired, nonemptyMsg]
    repeat apply append_ne_left
    decide
  · intro l p st h
    simp only [tired]
    rw [if_pos h]
    simp only [nonemptyMsg]
    repeat apply append_ne_left
    decide
  · intro l p st h
    simp only [tired]
    rw [if_neg (lt_asymm h), if_pos h]
    simp only [nonemptyMsg]
    repeat apply append_ne_left
    decide
  · intro l st
    right
    simp only [tired]
    rw [if_neg (lt_irrefl l), if_neg (lt_irrefl l)]
    simp only [nonemptyMsg]
    repeat apply append_ne_left
    decide

theorem contract_hype : MessageContract hype := by
  refine ⟨?_, ?_, ?_, ?_⟩
  · intro l st
    simp only [hype, nonemptyMsg]
    repeat apply append_ne_left
    decide
  · intro l p st h
    simp only [hype]
    rw [if_pos h]
    simp only [nonemptyMsg]
    repeat apply append_ne_left
    decide
  · intro l p st h
    simp only [hype]
    rw [if_neg (lt_asymm h), if_pos h]
    simp only [nonemptyMsg]
    repeat apply append_ne_left
    decide
  · intro l st
    right
    simp only [hype]
    rw [if_neg (lt_irrefl l), if_neg (lt_irrefl l)]
    simp only [nonemptyMsg]
    repeat apply append_ne_left
    decide

theorem contract_academic : MessageContract academic := by
  refine ⟨?_, ?_, ?_, ?_⟩
  · intro l st
    simp only [academic, nonemptyMsg]
    repeat apply append_ne_left
    decide
  · intro l p st h
    simp only [academic]
    rw [if_pos h]
    simp only [nonemptyMsg]
    repeat apply append_ne_left
    decide
  · intro l p st h
    simp only [academic]
    rw [if_neg (lt_asymm h), if_pos h]
    simp only [nonemptyMsg]
    repeat apply append_ne_left
    decide
  · intro l st
    right
    simp only [academic]
    rw [if_neg (lt_irrefl l), if_neg (lt_irrefl l)]
    simp only [nonemptyMsg]
    repeat apply append_ne_left
    decide

theorem contract_pirate : MessageContract pirate := by
  refine ⟨?_, ?_, ?_, ?_⟩
  · intro l st
    simp only [pirate, nonemptyMsg]
    repeat apply append_ne_left
    decide
  · intro l p st h
    simp only [pirate]
    rw [if_pos h]
    simp only [nonemptyMsg]
    repeat apply append_ne_left
    decide
  · intro l p st h
    simp only [pirate]
    rw [if_neg (lt_asymm h), if_pos h]
    simp only [nonemptyMsg]
    repeat apply append_ne_left
    decide
  · intro l st
    right
    simp only [pirate]
    rw [if_neg (lt_irrefl l), if_neg (lt_irrefl l)]
    simp only [nonemptyMsg]
    repeat apply append_ne_left
    decide

theorem contract_zen : MessageContract zen := by
  refine ⟨?_, ?_, ?_, ?_⟩
  · intro l st
    simp only [zen, nonemptyMsg]
    repeat apply append_ne_left
    decide
  · intro l p st h
    simp only [zen]
    rw [if_pos h]
    simp only [nonemptyMsg]
    repeat apply append_ne_left
    decide
  · intro l p st h
    simp only [zen]
    rw [if_neg (lt_asymm h), if_pos h]
    simp only [nonemptyMsg]
    repeat apply append_ne_left
    decide
  · intro l st
    right
    simp only [zen]
    rw [if_neg (lt_irrefl l), if_neg (lt_irrefl l)]
    simp only [nonemptyMsg]
    repeat apply append_ne_left
    decide

/-- C6 counterexample: the built-in "quiet" strategy, invoked with
previous average none at step 1, returns no message at all, contradicting
the claim that every built-in returns a non-empty introductory message
on first invocation. -/
theorem builtin_contract_counterexample :
    get_personality PERSONALITY_REGISTRY "quiet" =
      Except.ok (QuietPersonality.call 10) ∧
    QuietPersonality.call 10 1 none 1 = none :=
  ⟨rfl, rfl⟩

/-- C6 (amended): every built-in strategy except "quiet" returns a
non-empty message on first invocation, on strict decrease and on strict
increase, and on exact equality returns either none or a non-empty
no-change message; the "quiet" built-in instead emits its (non-empty)
message exactly when the step count is a multiple of its interval 10,
and nothing otherwise. -/
theorem builtin_contract_amended :
    MessageContract wholesome ∧ MessageContract sassy ∧ MessageContract nervous ∧
    (∀ pick, MessageContract (chaotic pick)) ∧ MessageContract arrogant ∧
    MessageContract tired ∧ MessageContract hype ∧ MessageContract academic ∧
    MessageContract pirate ∧ MessageContract zen ∧
    (∀ (l : ℚ) (p : Option ℚ) (st : Nat),
      QuietPersonality.call 10 l p st =
        if st % 10 = 0
        then some ("🔎 Step " ++ toString st ++ ": current loss " ++ fmtF l)
        else none) ∧
    (∀ (l : ℚ) (st : Nat), st % 10 = 0 →
      nonemptyMsg (QuietPersonality.call 10 l none st)) := by
  refine ⟨contract_wholesome, contract_sassy, contract_nervous, contract_chaotic,
    contract_arrogant, contract_tired, contract_hype, contract_academic,
    contract_pirate, contract_zen, ?_, ?_⟩
  · intro l p st
    by_cases h : st % 10 = 0 <;> simp [QuietPersonality.call, h]
  · intro l st h
    simp only [QuietPersonality.call]
    rw [if_neg (fun hc => hc h)]
    simp only [nonemptyMsg]
    repeat apply append_ne_left
    decide

/-- Witness for C6 (amended) at concrete inputs: wholesome greets at the
first step, and quiet speaks at step 10. -/
theorem builtin_contract_amended_witness :
    nonemptyMsg (wholesome 1 none 1) ∧
    nonemptyMsg (QuietPersonality.call 10 1 none 10) :=
  ⟨builtin_contract_amended.1.1 1 1,
   builtin_contract_amended.2.2.2.2.2.2.2.2.2.2.2 1 10 (by decide)⟩

end Emotigrad
